import Mathlib

/-!
Shallow embedding of the cross-chain bridge event listener in `script.py`.

The embedding covers the chain connector's log fetch (`ChainConnector.get_logs`),
the positional event decoder (`EventDataParser.parse_token_locked_event`), the
per-log dispatch protocol (`BridgeEventListener._process_log`), one scan cycle
(`BridgeEventListener._scan_blocks`), the poll loop with the shutdown-time
state save (`BridgeEventListener.run` / `_save_state`), startup state loading
(`BridgeEventListener._load_state` / `__init__`), and `main`'s configuration
building and validation.

Modelling conventions: Python integers are `Int`/`Nat` (unbounded, as in
Python); byte sequences (`HexBytes`) are `List Nat` of byte values; Python hex
strings are `List Char`/`String`; the blockchain node is a per-cycle
environment supplying the latest height (`none` models the height fetch
raising) and a fetch function returning either the logs or a transport error;
the relayer is an oracle `Nat → Bool` giving the outcome of the k-th HTTP call
of the run.  Externally observable behaviour of a cycle is recorded as a trace
of `EngineAct`s: log requests issued to the node, relay submissions with their
outcomes, and durable state-file writes.
-/

/-- Constant `CONFIRMATION_BLOCKS` (script.py line 28). -/
def CONFIRMATION_BLOCKS : Int := 12

/-- Constant `POLL_INTERVAL_SECONDS` (script.py line 31); the sleep itself has
no observable effect in the model. -/
def POLL_INTERVAL_SECONDS : Nat := 15

/-- Lowercase hex digit character for a value below 16, as produced by
Python `bytes.hex()`. -/
def hexDigit (n : Nat) : Char :=
  if n < 10 then Char.ofNat (48 + n) else Char.ofNat (87 + n)

/-- The two lowercase hex characters of one byte. -/
def byteHex (b : Nat) : List Char :=
  [hexDigit (b / 16 % 16), hexDigit (b % 16)]

/-- Characters of `HexBytes.hex()`: the characters `0`, `x`, then two hex
digits per byte. -/
def hexChars (bs : List Nat) : List Char :=
  '0' :: 'x' :: (bs.map byteHex).flatten

/-- `HexBytes.hex()` as a string. -/
def hexString (bs : List Nat) : String := String.mk (hexChars bs)

/-- Python `s.lstrip('0x')` (script.py line 137): removes every leading
character that is `0` or `x`, not merely a leading `0x` marker. -/
def lstrip0x (cs : List Char) : List Char :=
  cs.dropWhile fun c => c == '0' || c == 'x'

/-- Python slice `s[a:b]` on characters: clamped, never failing. -/
def pySlice (cs : List Char) (a b : Nat) : List Char :=
  (cs.drop a).take (b - a)

/-- Value of one hex digit character, either case. -/
def hexDigitVal (c : Char) : Option Nat :=
  if 48 ≤ c.toNat ∧ c.toNat ≤ 57 then some (c.toNat - 48)
  else if 97 ≤ c.toNat ∧ c.toNat ≤ 102 then some (c.toNat - 87)
  else if 65 ≤ c.toNat ∧ c.toNat ≤ 70 then some (c.toNat - 55)
  else none

def pyIntHexAux : Nat → List Char → Option Nat
  | acc, [] => some acc
  | acc, c :: rest =>
    match hexDigitVal c with
    | some d => pyIntHexAux (16 * acc + d) rest
    | none => none

/-- Python `int(s, 16)` on the strings reachable in the decoder: a nonempty
string of hex digits succeeds; the empty string or a non-hex character raises
`ValueError`, modelled as `none`. -/
def pyIntHex (cs : List Char) : Option Nat :=
  match cs with
  | [] => none
  | _ :: _ => pyIntHexAux 0 cs

/-- Value of one decimal digit character. -/
def decDigitVal (c : Char) : Option Nat :=
  if 48 ≤ c.toNat ∧ c.toNat ≤ 57 then some (c.toNat - 48) else none

def pyIntDecAux : Nat → List Char → Option Nat
  | acc, [] => some acc
  | acc, c :: rest =>
    match decDigitVal c with
    | some d => pyIntDecAux (10 * acc + d) rest
    | none => none

/-- Python `int(s)` for the strings reachable from `START_BLOCK`: a nonempty
string of decimal digits succeeds; anything else raises `ValueError`,
modelled as `none`. -/
def pyIntDec (s : String) : Option Int :=
  match s.toList with
  | [] => none
  | _ :: _ => (pyIntDecAux 0 s.toList).map Int.ofNat

/-- A raw log record as seen by the Python code (web3 `LogReceipt`): the
transaction hash bytes, the block number, the topic hashes and the data
payload bytes. -/
structure LogReceipt where
  transactionHash : List Nat
  blockNumber : Int
  topics : List (List Nat)
  data : List Nat
deriving Repr, DecidableEq

/-- The dictionary returned by `EventDataParser.parse_token_locked_event`. -/
structure ParsedEvent where
  transactionHash : String
  blockNumber : Int
  user : String
  token : String
  amount : Nat
  destinationChainId : Nat
deriving Repr, DecidableEq

/-- `EventDataParser.parse_token_locked_event` (script.py lines 107-153).
`user` is `'0x' + log['topics'][1].hex()[26:]`, `token` the same on topic 2;
the data characters are `log['data'].hex().lstrip('0x')` and the two words
are `int(data[0:64], 16)` and `int(data[64:128], 16)`.  A missing topic
(`IndexError`) or a failing `int` (`ValueError`) is caught and yields
`None`. -/
def parse_token_locked_event (log : LogReceipt) : Option ParsedEvent :=
  match log.topics[1]?, log.topics[2]? with
  | some t1, some t2 =>
    let dataChars := lstrip0x (hexChars log.data)
    match pyIntHex (pySlice dataChars 0 64), pyIntHex (pySlice dataChars 64 128) with
    | some amount_raw, some destination_chain_id =>
      some { transactionHash := hexString log.transactionHash
             blockNumber := log.blockNumber
             user := String.mk ('0' :: 'x' :: (hexChars t1).drop 26)
             token := String.mk ('0' :: 'x' :: (hexChars t2).drop 26)
             amount := amount_raw
             destinationChainId := destination_chain_id }
    | _, _ => none
  | _, _ => none

/-- A 32-byte big-endian word holding a value below 256 (31 zero bytes then
the value byte). -/
def word32 (n : Nat) : List Nat := List.replicate 31 0 ++ [n]

def topicSig : List Nat := List.replicate 32 18

def topicUser : List Nat := List.replicate 12 0 ++ List.replicate 20 171

def topicToken : List Nat := List.replicate 12 0 ++ List.replicate 20 205

def txBytes1 : List Nat := List.replicate 32 17

/-- A well-formed `TokensLocked` log: three 32-byte topics and a data payload
of exactly two 32-byte big-endian words encoding amount 1 and destination
chain id 1. -/
def logSmallWords : LogReceipt :=
  { transactionHash := txBytes1
    blockNumber := 60
    topics := [topicSig, topicUser, topicToken]
    data := word32 1 ++ word32 1 }

/-- The same log with both data words zero. -/
def logZeroWords : LogReceipt :=
  { transactionHash := txBytes1
    blockNumber := 60
    topics := [topicSig, topicUser, topicToken]
    data := word32 0 ++ word32 0 }

/-- The listener's mutable in-memory state: `self.state['last_scanned_block']`
and the set `self.processed_txs` (duplicate-free by construction of the
operations below; membership is all that matters). -/
structure ListenerState where
  last_scanned_block : Int
  processed_txs : List String
deriving Repr, DecidableEq

/-- Externally observable actions of the listener: a `get_logs` request for an
inclusive block range, a relayer submission for a transaction hash with its
outcome, and a durable write of the state file with its contents. -/
inductive EngineAct where
  | getLogsReq : Int → Int → EngineAct
  | submit : String → Bool → EngineAct
  | saveState : Int → List String → EngineAct
deriving Repr, DecidableEq

/-- The node's behaviour during one cycle: the latest block number (`none`
models `get_latest_block_number` raising) and the outcome of a
`w3.eth.get_logs` call for given range, address and topic filter (`Except.error`
models the call raising a transport error). -/
structure CycleEnv where
  latest : Option Int
  fetch : Int → Int → Option String → List String → Except Unit (List LogReceipt)

/-- The configuration dictionary built by `main` (script.py lines 339-345).
`rpc_url` and `bridge_contract_address` are exactly what `os.getenv` returned;
`start_block` is `some` whenever the key is present in the dictionary. -/
structure Config where
  rpc_url : Option String
  bridge_contract_address : Option String
  relayer_api_endpoint : String
  event_topic_hash : String
  start_block : Option Int
deriving Repr, DecidableEq

/-- `ChainConnector.get_logs` (script.py lines 76-99): forwards the filter to
the node; ANY exception is caught (line 97) and an empty list is returned. -/
def get_logs (env : CycleEnv) (from_block to_block : Int)
    (address : Option String) (topics : List String) : List LogReceipt :=
  match env.fetch from_block to_block address topics with
  | .ok logs => logs
  | .error _ => []

/-- `BridgeEventListener._process_log` (script.py lines 289-309): skip if the
transaction hash is already in `processed_txs`; skip if parsing fails;
otherwise call `trigger_token_mint` (the k-th relayer call, outcome
`relay k`) and add the hash to `processed_txs` only on success. -/
def process_log (relay : Nat → Bool) (st : ListenerState) (k : Nat)
    (log : LogReceipt) : ListenerState × Nat × List EngineAct :=
  let tx_hash := hexString log.transactionHash
  if tx_hash ∈ st.processed_txs then (st, k, [])
  else
    match parse_token_locked_event log with
    | none => (st, k, [])
    | some _ =>
      if relay k then
        ({ st with processed_txs := tx_hash :: st.processed_txs }, k + 1,
          [EngineAct.submit tx_hash true])
      else
        (st, k + 1, [EngineAct.submit tx_hash false])

/-- The `for log in logs: self._process_log(log)` loop of `_scan_blocks`
(script.py lines 276-277). -/
def process_logs (relay : Nat → Bool) :
    ListenerState → Nat → List LogReceipt → ListenerState × Nat × List EngineAct
  | st, k, [] => (st, k, [])
  | st, k, log :: rest =>
    let r1 := process_log relay st k log
    let r2 := process_logs relay r1.1 r1.2.1 rest
    (r2.1, r2.2.1, r1.2.2 ++ r2.2.2)

/-- The scanning branch of `_scan_blocks` (script.py lines 265-282): issue the
log request, process every returned log, then set
`last_scanned_block = to_block`. -/
def dispatch_range (cfg : Config) (relay : Nat → Bool) (env : CycleEnv)
    (st : ListenerState) (k : Nat) (from_block to_block : Int) :
    ListenerState × Nat × List EngineAct :=
  let r := process_logs relay st k
    (get_logs env from_block to_block cfg.bridge_contract_address [cfg.event_topic_hash])
  ({ r.1 with last_scanned_block := to_block }, r.2.1,
    EngineAct.getLogsReq from_block to_block :: r.2.2)

/-- `BridgeEventListener._scan_blocks` (script.py lines 251-287): one cycle.
`env.latest = none` models `get_latest_block_number` raising; both `except`
handlers (lines 284-287) leave the state unchanged.  With a height, the cycle
is a no-op when `from_block > to_block` and otherwise scans
`[last_scanned_block + 1, latest - CONFIRMATION_BLOCKS]`. -/
def scan_blocks (cfg : Config) (relay : Nat → Bool) (env : CycleEnv)
    (st : ListenerState) (k : Nat) : ListenerState × Nat × List EngineAct :=
  match env.latest with
  | none => (st, k, [])
  | some latest_block =>
    if latest_block - CONFIRMATION_BLOCKS < st.last_scanned_block + 1 then (st, k, [])
    else
      dispatch_range cfg relay env st k
        (st.last_scanned_block + 1) (latest_block - CONFIRMATION_BLOCKS)

/-- The `while True` loop of `BridgeEventListener.run`, cut at the cycle
boundary where the interrupt arrives: the finite list of per-cycle node
behaviours that were executed. -/
def run_cycles (cfg : Config) (relay : Nat → Bool) :
    List CycleEnv → ListenerState → Nat → ListenerState × Nat × List EngineAct
  | [], st, k => (st, k, [])
  | env :: rest, st, k =>
    let r1 := scan_blocks cfg relay env st k
    let r2 := run_cycles cfg relay rest r1.1 r1.2.1
    (r2.1, r2.2.1, r1.2.2 ++ r2.2.2)

/-- `BridgeEventListener.run` (script.py lines 311-326): runs the cycles, and
the `finally` clause calls `_save_state` (lines 239-249) exactly once, at
shutdown, writing `last_scanned_block` and the processed set to the state
file. -/
def listener_run (cfg : Config) (relay : Nat → Bool) (envs : List CycleEnv)
    (st : ListenerState) : ListenerState × List EngineAct :=
  let r := run_cycles cfg relay envs st 0
  (r.1, r.2.2 ++ [EngineAct.saveState r.1.last_scanned_block r.1.processed_txs])

/-- The JSON object held by the state file: each key may be absent. -/
structure StateJson where
  last_scanned_block : Option Int
  processed_txs : Option (List String)
deriving Repr, DecidableEq

/-- `BridgeEventListener._load_state` (script.py lines 224-237): the parsed
state file when it exists; otherwise a fresh state whose starting block is
`config.get('start_block', <queried height>)` — the queried height is used
only when the `start_block` key is absent from the config dictionary. -/
def load_state (cfg : Config) (file : Option StateJson)
    (latest_at_startup : Int) : StateJson :=
  match file with
  | some st => st
  | none =>
    { last_scanned_block := some (cfg.start_block.getD latest_at_startup)
      processed_txs := some [] }

/-- `BridgeEventListener.__init__` (script.py lines 210-222): keeps the loaded
state dictionary and builds the processed set from
`self.state.get('processed_txs', [])`; total — no failure for a well-formed
JSON object. -/
def listener_init (cfg : Config) (file : Option StateJson)
    (latest_at_startup : Int) : StateJson × List String :=
  let state := load_state cfg file latest_at_startup
  (state, state.processed_txs.getD [])

/-- The config dictionary built by `main` (script.py lines 337-345) from an
environment, `none` when `int(os.getenv('START_BLOCK', '0'))` raises.  Note
`event_topic_hash` defaults to the placeholder `"0x123..."` and `start_block`
is always present (`some`). -/
def mkConfig (env : String → Option String) : Option Config :=
  match pyIntDec ((env "START_BLOCK").getD "0") with
  | none => none
  | some sb =>
    some { rpc_url := env "SOURCE_CHAIN_RPC_URL"
           bridge_contract_address := env "BRIDGE_CONTRACT_ADDRESS"
           relayer_api_endpoint :=
             (env "RELAYER_API_ENDPOINT").getD "https://api.example-relayer.com/submit"
           event_topic_hash := (env "TOKENS_LOCKED_EVENT_HASH").getD "0x123..."
           start_block := some sb }

/-- Python truthiness of a possibly missing string value. -/
def truthy : Option String → Bool
  | none => false
  | some s => !s.isEmpty

/-- The validation in `main` (script.py line 348):
`all([config['rpc_url'], config['bridge_contract_address'],
config['event_topic_hash']])`. -/
def config_ok (c : Config) : Bool :=
  truthy c.rpc_url && truthy c.bridge_contract_address && truthy (some c.event_topic_hash)

/-- Whether `main` (script.py lines 330-353) reaches
`BridgeEventListener(config)` and `listener.run()` rather than returning
early. -/
def main_enters_loop (env : String → Option String) : Bool :=
  match mkConfig env with
  | none => false
  | some c => config_ok c

/-- Whether an action is a durable state-file write. -/
def isSaveAct : EngineAct → Bool
  | .saveState _ _ => true
  | _ => false

/-- The durable state-file writes contained in a trace. -/
def saveActs (acts : List EngineAct) : List EngineAct := acts.filter isSaveAct

/-- Whether an action is a relayer submission for the given transaction
hash. -/
def isSubmitOf (tx : String) : EngineAct → Bool
  | .submit t _ => t == tx
  | _ => false

/-- Whether an action is a SUCCESSFUL relayer submission for the given
transaction hash. -/
def isOkSubmitOf (tx : String) : EngineAct → Bool
  | .submit t ok => t == tx && ok
  | _ => false

/-- Number of relayer submissions for a transaction hash in a trace. -/
def submitsFor (tx : String) (acts : List EngineAct) : Nat :=
  acts.countP (isSubmitOf tx)

/-- Number of successful relayer submissions for a transaction hash in a
trace. -/
def okSubmitsFor (tx : String) (acts : List EngineAct) : Nat :=
  acts.countP (isOkSubmitOf tx)

/-- A node fetch that always fails with a transport error. -/
def fetchErr : Int → Int → Option String → List String → Except Unit (List LogReceipt) :=
  fun _ _ _ _ => .error ()

/-- A node fetch that always succeeds with no logs. -/
def fetchNone : Int → Int → Option String → List String → Except Unit (List LogReceipt) :=
  fun _ _ _ _ => .ok []

/-- An honest node holding a fixed chain: a fetch returns exactly the chain's
logs whose block number lies in the requested inclusive range. -/
def fetchChain (chain : List LogReceipt) :
    Int → Int → Option String → List String → Except Unit (List LogReceipt) :=
  fun a b _ _ => .ok (chain.filter fun l => a ≤ l.blockNumber && l.blockNumber ≤ b)

/-- A fully populated configuration, as the listener sees after validation. -/
def cfg0 : Config :=
  { rpc_url := some "http://node"
    bridge_contract_address := some "0xbridge"
    relayer_api_endpoint := "https://api.example-relayer.com/submit"
    event_topic_hash := "0xtopic"
    start_block := some 0 }

/-- A relayer that rejects every submission. -/
def relayNever : Nat → Bool := fun _ => false

/-- State with `last_scanned_block = 50` and nothing processed. -/
def st50 : ListenerState := { last_scanned_block := 50, processed_txs := [] }

def env100ok : CycleEnv := { latest := some 100, fetch := fetchNone }

def env113ok : CycleEnv := { latest := some 113, fetch := fetchNone }

def env62 : CycleEnv := { latest := some 62, fetch := fetchNone }

def env100err : CycleEnv := { latest := some 100, fetch := fetchErr }

/-- The chain carrying exactly one `TokensLocked` log, at block 60. -/
def chain60 : List LogReceipt := [logSmallWords]

def env100chain : CycleEnv := { latest := some 100, fetch := fetchChain chain60 }

def env113chain : CycleEnv := { latest := some 113, fetch := fetchChain chain60 }

/-- A node whose fetch returns the block-60 log twice (two logs of one
transaction), for the duplicate-id scenario. -/
def envDup : CycleEnv :=
  { latest := some 100, fetch := fetchChain [logSmallWords, logSmallWords] }

/-- The transaction hash string of `logSmallWords`. -/
def txSmall : String := hexString txBytes1

/-- An environment where only the RPC URL and the contract address are set;
`TOKENS_LOCKED_EVENT_HASH` is absent. -/
def env8 : String → Option String := fun k =>
  if k = "SOURCE_CHAIN_RPC_URL" then some "http://node"
  else if k = "BRIDGE_CONTRACT_ADDRESS" then some "0xbridge"
  else none

/-- An environment where all three required variables are set but
`START_BLOCK` is absent. -/
def env9 : String → Option String := fun k =>
  if k = "SOURCE_CHAIN_RPC_URL" then some "http://node"
  else if k = "BRIDGE_CONTRACT_ADDRESS" then some "0xbridge"
  else if k = "TOKENS_LOCKED_EVENT_HASH" then some "0xtopic"
  else none

/-- `_process_log` does exactly one of three things: skip (already processed,
or parse failure), submit successfully and record the hash, or submit
unsuccessfully and record nothing.  In both submit branches the hash was not
yet processed. -/
theorem process_log_cases (relay : Nat → Bool) (st : ListenerState) (k : Nat)
    (log : LogReceipt) :
    process_log relay st k log = (st, k, []) ∨
    (hexString log.transactionHash ∉ st.processed_txs ∧
      (process_log relay st k log =
          ({ st with processed_txs := hexString log.transactionHash :: st.processed_txs },
            k + 1, [EngineAct.submit (hexString log.transactionHash) true]) ∨
        process_log relay st k log =
          (st, k + 1, [EngineAct.submit (hexString log.transactionHash) false]))) := by
  unfold process_log
  by_cases hmem : hexString log.transactionHash ∈ st.processed_txs
  · left; simp [hmem]
  · cases hp : parse_token_locked_event log with
    | none => left; simp [hmem, hp]
    | some ev =>
      right
      refine ⟨hmem, ?_⟩
      by_cases hr : relay k = true
      · left; simp [hmem, hp, hr]
      · right; simp [hmem, hp, hr]

/-- `_process_log` never changes `last_scanned_block` and only grows the
processed set. -/
theorem process_log_mono (relay : Nat → Bool) (st : ListenerState) (k : Nat)
    (log : LogReceipt) :
    (process_log relay st k log).1.last_scanned_block = st.last_scanned_block ∧
    st.processed_txs ⊆ (process_log relay st k log).1.processed_txs := by
  rcases process_log_cases relay st k log with h | ⟨_, h | h⟩ <;> rw [h]
  · exact ⟨rfl, fun a ha => ha⟩
  · exact ⟨rfl, List.subset_cons_self _ _⟩
  · exact ⟨rfl, fun a ha => ha⟩

/-- Definitional unfolding of the log loop on the empty list. -/
theorem process_logs_nil (relay : Nat → Bool) (st : ListenerState) (k : Nat) :
    process_logs relay st k [] = (st, k, []) := rfl

/-- Definitional unfolding of the log loop on a nonempty list. -/
theorem process_logs_cons (relay : Nat → Bool) (st : ListenerState) (k : Nat)
    (log : LogReceipt) (rest : List LogReceipt) :
    process_logs relay st k (log :: rest) =
      ((process_logs relay (process_log relay st k log).1
          (process_log relay st k log).2.1 rest).1,
        (process_logs relay (process_log relay st k log).1
          (process_log relay st k log).2.1 rest).2.1,
        (process_log relay st k log).2.2 ++
          (process_logs relay (process_log relay st k log).1
            (process_log relay st k log).2.1 rest).2.2) := rfl

/-- The log loop never changes `last_scanned_block` and only grows the
processed set. -/
theorem process_logs_mono (relay : Nat → Bool) (logs : List LogReceipt) :
    ∀ (st : ListenerState) (k : Nat),
      (process_logs relay st k logs).1.last_scanned_block = st.last_scanned_block ∧
      st.processed_txs ⊆ (process_logs relay st k logs).1.processed_txs := by
  induction logs with
  | nil => exact fun st k => ⟨rfl, fun a ha => ha⟩
  | cons log rest ih =>
    intro st k
    rw [process_logs_cons]
    have h1 := process_log_mono relay st k log
    have h2 := ih (process_log relay st k log).1 (process_log relay st k log).2.1
    exact ⟨h2.1.trans h1.1, h1.2.trans h2.2⟩

/-- Equation lemma: a cycle in which the height fetch raises leaves
everything unchanged. -/
theorem scan_blocks_none (cfg : Config) (relay : Nat → Bool) (env : CycleEnv)
    (st : ListenerState) (k : Nat) (h : env.latest = none) :
    scan_blocks cfg relay env st k = (st, k, []) := by
  unfold scan_blocks; rw [h]

/-- Equation lemma: a cycle in which the height fetch returns a block
number. -/
theorem scan_blocks_some (cfg : Config) (relay : Nat → Bool) (env : CycleEnv)
    (st : ListenerState) (k : Nat) (latest_block : Int)
    (h : env.latest = some latest_block) :
    scan_blocks cfg relay env st k =
      if latest_block - CONFIRMATION_BLOCKS < st.last_scanned_block + 1 then (st, k, [])
      else
        dispatch_range cfg relay env st k
          (st.last_scanned_block + 1) (latest_block - CONFIRMATION_BLOCKS) := by
  unfold scan_blocks; rw [h]

/-- One scan cycle never decreases `last_scanned_block` and only grows the
processed set. -/
theorem scan_blocks_mono (cfg : Config) (relay : Nat → Bool) (env : CycleEnv)
    (st : ListenerState) (k : Nat) :
    st.last_scanned_block ≤ (scan_blocks cfg relay env st k).1.last_scanned_block ∧
    st.processed_txs ⊆ (scan_blocks cfg relay env st k).1.processed_txs := by
  cases henv : env.latest with
  | none => rw [scan_blocks_none cfg relay env st k henv]; exact ⟨le_refl _, fun a ha => ha⟩
  | some latest_block =>
    rw [scan_blocks_some cfg relay env st k latest_block henv]
    by_cases hc : latest_block - CONFIRMATION_BLOCKS < st.last_scanned_block + 1
    · rw [if_pos hc]; exact ⟨le_refl _, fun a ha => ha⟩
    · rw [if_neg hc]
      unfold dispatch_range
      refine ⟨?_, ?_⟩
      · show st.last_scanned_block ≤ latest_block - CONFIRMATION_BLOCKS
        omega
      · exact (process_logs_mono relay _ st k).2

/-- Definitional unfolding of the cycle loop on the empty list. -/
theorem run_cycles_nil (cfg : Config) (relay : Nat → Bool) (st : ListenerState)
    (k : Nat) : run_cycles cfg relay [] st k = (st, k, []) := rfl

/-- Definitional unfolding of the cycle loop on a nonempty list. -/
theorem run_cycles_cons (cfg : Config) (relay : Nat → Bool) (env : CycleEnv)
    (rest : List CycleEnv) (st : ListenerState) (k : Nat) :
    run_cycles cfg relay (env :: rest) st k =
      ((run_cycles cfg relay rest (scan_blocks cfg relay env st k).1
          (scan_blocks cfg relay env st k).2.1).1,
        (run_cycles cfg relay rest (scan_blocks cfg relay env st k).1
          (scan_blocks cfg relay env st k).2.1).2.1,
        (scan_blocks cfg relay env st k).2.2 ++
          (run_cycles cfg relay rest (scan_blocks cfg relay env st k).1
            (scan_blocks cfg relay env st k).2.1).2.2) := rfl

/-- Any number of scan cycles never decreases `last_scanned_block` and only
grows the processed set. -/
theorem run_cycles_mono (cfg : Config) (relay : Nat → Bool) (envs : List CycleEnv) :
    ∀ (st : ListenerState) (k : Nat),
      st.last_scanned_block ≤ (run_cycles cfg relay envs st k).1.last_scanned_block ∧
      st.processed_txs ⊆ (run_cycles cfg relay envs st k).1.processed_txs := by
  induction envs with
  | nil => exact fun st k => ⟨le_refl _, fun a ha => ha⟩
  | cons env rest ih =>
    intro st k
    rw [run_cycles_cons]
    have h1 := scan_blocks_mono cfg relay env st k
    have h2 := ih (scan_blocks cfg relay env st k).1 (scan_blocks cfg relay env st k).2.1
    exact ⟨h1.1.trans h2.1, h1.2.trans h2.2⟩

/-- Every action emitted by the log loop is a relayer submission. -/
theorem mem_process_logs_trace (relay : Nat → Bool) (logs : List LogReceipt) :
    ∀ (st : ListenerState) (k : Nat) (a : EngineAct),
      a ∈ (process_logs relay st k logs).2.2 → ∃ t o, a = EngineAct.submit t o := by
  induction logs with
  | nil => intro st k a ha; exact absurd ha (List.not_mem_nil a)
  | cons log rest ih =>
    intro st k a ha
    rw [process_logs_cons] at ha
    rcases List.mem_append.mp ha with h | h
    · rcases process_log_cases relay st k log with hc | ⟨_, hc | hc⟩ <;> rw [hc] at h
      · exact absurd h (List.not_mem_nil a)
      · exact ⟨_, _, List.mem_singleton.mp h⟩
      · exact ⟨_, _, List.mem_singleton.mp h⟩
    · exact ih _ _ a h

/-- A scan cycle either leaves everything unchanged with an empty trace, or
issues exactly one log request — for the range
`[last_scanned_block + 1, latest − CONFIRMATION_BLOCKS]` — followed only by
relayer submissions, and its final state is the log loop's state with
`last_scanned_block` set to the top of the range. -/
theorem scan_blocks_trace_cases (cfg : Config) (relay : Nat → Bool) (env : CycleEnv)
    (st : ListenerState) (k : Nat) :
    scan_blocks cfg relay env st k = (st, k, []) ∨
    ∃ latest_block, env.latest = some latest_block ∧
      st.last_scanned_block + 1 ≤ latest_block - CONFIRMATION_BLOCKS ∧
      scan_blocks cfg relay env st k =
        dispatch_range cfg relay env st k
          (st.last_scanned_block + 1) (latest_block - CONFIRMATION_BLOCKS) := by
  cases henv : env.latest with
  | none => exact Or.inl (scan_blocks_none cfg relay env st k henv)
  | some latest_block =>
    rw [scan_blocks_some cfg relay env st k latest_block henv]
    by_cases hc : latest_block - CONFIRMATION_BLOCKS < st.last_scanned_block + 1
    · rw [if_pos hc]; exact Or.inl rfl
    · rw [if_neg hc]
      exact Or.inr ⟨latest_block, rfl, by omega, rfl⟩

/-- Unfolding of the scanning branch. -/
theorem dispatch_range_eq (cfg : Config) (relay : Nat → Bool) (env : CycleEnv)
    (st : ListenerState) (k : Nat) (from_block to_block : Int) :
    dispatch_range cfg relay env st k from_block to_block =
      ({ (process_logs relay st k (get_logs env from_block to_block
            cfg.bridge_contract_address [cfg.event_topic_hash])).1 with
          last_scanned_block := to_block },
        (process_logs relay st k (get_logs env from_block to_block
          cfg.bridge_contract_address [cfg.event_topic_hash])).2.1,
        EngineAct.getLogsReq from_block to_block ::
          (process_logs relay st k (get_logs env from_block to_block
            cfg.bridge_contract_address [cfg.event_topic_hash])).2.2) := rfl

/-- No durable state-file write happens inside a scan cycle. -/
theorem scan_blocks_no_save (cfg : Config) (relay : Nat → Bool) (env : CycleEnv)
    (st : ListenerState) (k : Nat) :
    saveActs (scan_blocks cfg relay env st k).2.2 = [] := by
  rcases scan_blocks_trace_cases cfg relay env st k with h | ⟨lb, _, _, h⟩ <;> rw [h]
  · rfl
  · rw [dispatch_range_eq]
    show List.filter isSaveAct (EngineAct.getLogsReq _ _ :: _) = []
    rw [List.filter_cons]
    rw [if_neg (by simp [isSaveAct])]
    rw [List.filter_eq_nil_iff]
    intro a ha
    rcases mem_process_logs_trace relay _ _ _ a ha with ⟨t, o, rfl⟩
    simp [isSaveAct]

/-- No durable state-file write happens across any number of scan cycles. -/
theorem run_cycles_no_save (cfg : Config) (relay : Nat → Bool) (envs : List CycleEnv) :
    ∀ (st : ListenerState) (k : Nat),
      saveActs (run_cycles cfg relay envs st k).2.2 = [] := by
  induction envs with
  | nil => intro st k; rfl
  | cons env rest ih =>
    intro st k
    have h1 := scan_blocks_no_save cfg relay env st k
    have h2 := ih (scan_blocks cfg relay env st k).1 (scan_blocks cfg relay env st k).2.1
    rw [run_cycles_cons]
    show saveActs ((scan_blocks cfg relay env st k).2.2 ++ _) = []
    unfold saveActs at h1 h2 ⊢
    rw [List.filter_append, h1, h2]
    rfl

/-- A successful submission for `tx` is in particular a submission for
`tx`. -/
theorem okSubmits_le_submits (tx : String) (acts : List EngineAct) :
    okSubmitsFor tx acts ≤ submitsFor tx acts := by
  unfold okSubmitsFor submitsFor
  apply List.countP_mono_left
  intro a _ h
  cases a with
  | submit t o =>
    simp only [isOkSubmitOf, Bool.and_eq_true] at h
    simp only [isSubmitOf, h.1]
  | getLogsReq f t => simp [isOkSubmitOf] at h
  | saveState l p => simp [isOkSubmitOf] at h

/-- Per-log dispatch invariant: an already processed hash is neither
resubmitted nor forgotten; at most one successful submission happens, and a
successful submission marks the hash processed. -/
theorem process_log_submit_inv (relay : Nat → Bool) (st : ListenerState) (k : Nat)
    (log : LogReceipt) (tx : String) :
    (tx ∈ st.processed_txs →
      submitsFor tx (process_log relay st k log).2.2 = 0 ∧
      tx ∈ (process_log relay st k log).1.processed_txs) ∧
    okSubmitsFor tx (process_log relay st k log).2.2 ≤ 1 ∧
    (1 ≤ okSubmitsFor tx (process_log relay st k log).2.2 →
      tx ∈ (process_log relay st k log).1.processed_txs) := by
  rcases process_log_cases relay st k log with h | ⟨hmem, h | h⟩ <;> rw [h]
  · refine ⟨fun hm => ⟨rfl, hm⟩, by simp [okSubmitsFor], fun h1 => ?_⟩
    simp [okSubmitsFor] at h1
  · by_cases heq : hexString log.transactionHash = tx
    · refine ⟨fun hm => absurd (heq ▸ hm) hmem, ?_, fun _ => ?_⟩
      · exact List.countP_le_length _
      · show tx ∈ hexString log.transactionHash :: st.processed_txs
        rw [heq]; exact List.mem_cons_self _ _
    · refine ⟨fun hm => ⟨?_, List.mem_cons_of_mem _ hm⟩, ?_, fun h1 => ?_⟩
      · simp [submitsFor, List.countP_cons, isSubmitOf, heq]
      · exact List.countP_le_length _
      · simp [okSubmitsFor, List.countP_cons, isOkSubmitOf, heq] at h1
  · by_cases heq : hexString log.transactionHash = tx
    · refine ⟨fun hm => absurd (heq ▸ hm) hmem, ?_, fun h1 => ?_⟩
      · exact List.countP_le_length _
      · simp [okSubmitsFor, List.countP_cons, isOkSubmitOf] at h1
    · refine ⟨fun hm => ⟨?_, hm⟩, ?_, fun h1 => ?_⟩
      · simp [submitsFor, List.countP_cons, isSubmitOf, heq]
      · exact List.countP_le_length _
      · simp [okSubmitsFor, List.countP_cons, isOkSubmitOf] at h1

/-- The dispatch invariant lifted to the log loop. -/
theorem process_logs_submit_inv (relay : Nat → Bool) (tx : String)
    (logs : List LogReceipt) :
    ∀ (st : ListenerState) (k : Nat),
      (tx ∈ st.processed_txs →
        submitsFor tx (process_logs relay st k logs).2.2 = 0 ∧
        tx ∈ (process_logs relay st k logs).1.processed_txs) ∧
      okSubmitsFor tx (process_logs relay st k logs).2.2 ≤ 1 ∧
      (1 ≤ okSubmitsFor tx (process_logs relay st k logs).2.2 →
        tx ∈ (process_logs relay st k logs).1.processed_txs) := by
  induction logs with
  | nil =>
    intro st k
    rw [process_logs_nil]
    exact ⟨fun hm => ⟨rfl, hm⟩, by simp [okSubmitsFor], fun h1 => by simp [okSubmitsFor] at h1⟩
  | cons log rest ih =>
    intro st k
    rw [process_logs_cons]
    have h1 := process_log_submit_inv relay st k log tx
    have ih1 := ih (process_log relay st k log).1 (process_log relay st k log).2.1
    have hsub : ∀ acts1 acts2, submitsFor tx (acts1 ++ acts2) =
        submitsFor tx acts1 + submitsFor tx acts2 :=
      fun a b => List.countP_append _ a b
    have hok : ∀ acts1 acts2, okSubmitsFor tx (acts1 ++ acts2) =
        okSubmitsFor tx acts1 + okSubmitsFor tx acts2 :=
      fun a b => List.countP_append _ a b
    refine ⟨fun hm => ?_, ?_, ?_⟩
    · show submitsFor tx ((process_log relay st k log).2.2 ++ _) = 0 ∧ _
      rw [hsub]
      have a1 := h1.1 hm
      have a2 := ih1.1 a1.2
      exact ⟨by rw [a1.1, a2.1], a2.2⟩
    · show okSubmitsFor tx ((process_log relay st k log).2.2 ++ _) ≤ 1
      rw [hok]
      by_cases hfst : 1 ≤ okSubmitsFor tx (process_log relay st k log).2.2
      · have hmem1 := h1.2.2 hfst
        have h0 : submitsFor tx (process_logs relay (process_log relay st k log).1
            (process_log relay st k log).2.1 rest).2.2 = 0 := (ih1.1 hmem1).1
        have h0' := okSubmits_le_submits tx (process_logs relay (process_log relay st k log).1
            (process_log relay st k log).2.1 rest).2.2
        have := h1.2.1
        omega
      · have := ih1.2.1
        omega
    · show 1 ≤ okSubmitsFor tx ((process_log relay st k log).2.2 ++ _) → _
      rw [hok]
      intro htot
      by_cases hfst : 1 ≤ okSubmitsFor tx (process_log relay st k log).2.2
      · exact (ih1.1 (h1.2.2 hfst)).2
      · have h0 : okSubmitsFor tx (process_log relay st k log).2.2 = 0 := by omega
        exact ih1.2.2 (by omega)

/-- The dispatch invariant lifted to one scan cycle. -/
theorem scan_blocks_submit_inv (cfg : Config) (relay : Nat → Bool) (env : CycleEnv)
    (st : ListenerState) (k : Nat) (tx : String) :
    (tx ∈ st.processed_txs →
      submitsFor tx (scan_blocks cfg relay env st k).2.2 = 0 ∧
      tx ∈ (scan_blocks cfg relay env st k).1.processed_txs) ∧
    okSubmitsFor tx (scan_blocks cfg relay env st k).2.2 ≤ 1 ∧
    (1 ≤ okSubmitsFor tx (scan_blocks cfg relay env st k).2.2 →
      tx ∈ (scan_blocks cfg relay env st k).1.processed_txs) := by
  rcases scan_blocks_trace_cases cfg relay env st k with h | ⟨lb, _, _, h⟩ <;> rw [h]
  · exact ⟨fun hm => ⟨rfl, hm⟩, by simp [okSubmitsFor], fun h1 => by simp [okSubmitsFor] at h1⟩
  · rw [dispatch_range_eq]
    have key := process_logs_submit_inv relay tx
      (get_logs env (st.last_scanned_block + 1) (lb - CONFIRMATION_BLOCKS)
        cfg.bridge_contract_address [cfg.event_topic_hash]) st k
    have hreq : ∀ (p : EngineAct → Bool), p (EngineAct.getLogsReq (st.last_scanned_block + 1)
        (lb - CONFIRMATION_BLOCKS)) = false →
        ∀ acts, List.countP p (EngineAct.getLogsReq (st.last_scanned_block + 1)
          (lb - CONFIRMATION_BLOCKS) :: acts) = List.countP p acts := by
      intro p hp acts
      rw [List.countP_cons, hp]
      simp
    refine ⟨fun hm => ?_, ?_, ?_⟩
    · show submitsFor tx (EngineAct.getLogsReq _ _ :: _) = 0 ∧ _
      unfold submitsFor
      rw [hreq (isSubmitOf tx) (by simp [isSubmitOf]) _]
      exact (key.1 hm)
    · show okSubmitsFor tx (EngineAct.getLogsReq _ _ :: _) ≤ 1
      unfold okSubmitsFor
      rw [hreq (isOkSubmitOf tx) (by simp [isOkSubmitOf]) _]
      exact key.2.1
    · show 1 ≤ okSubmitsFor tx (EngineAct.getLogsReq _ _ :: _) → _
      unfold okSubmitsFor
      rw [hreq (isOkSubmitOf tx) (by simp [isOkSubmitOf]) _]
      exact key.2.2

/-- The dispatch invariant lifted to any number of cycles. -/
theorem run_cycles_submit_inv (cfg : Config) (relay : Nat → Bool) (tx : String)
    (envs : List CycleEnv) :
    ∀ (st : ListenerState) (k : Nat),
      (tx ∈ st.processed_txs →
        submitsFor tx (run_cycles cfg relay envs st k).2.2 = 0 ∧
        tx ∈ (run_cycles cfg relay envs st k).1.processed_txs) ∧
      okSubmitsFor tx (run_cycles cfg relay envs st k).2.2 ≤ 1 ∧
      (1 ≤ okSubmitsFor tx (run_cycles cfg relay envs st k).2.2 →
        tx ∈ (run_cycles cfg relay envs st k).1.processed_txs) := by
  induction envs with
  | nil =>
    intro st k
    rw [run_cycles_nil]
    exact ⟨fun hm => ⟨rfl, hm⟩, by simp [okSubmitsFor], fun h1 => by simp [okSubmitsFor] at h1⟩
  | cons env rest ih =>
    intro st k
    rw [run_cycles_cons]
    have h1 := scan_blocks_submit_inv cfg relay env st k tx
    have ih1 := ih (scan_blocks cfg relay env st k).1 (scan_blocks cfg relay env st k).2.1
    have hsub : ∀ acts1 acts2, submitsFor tx (acts1 ++ acts2) =
        submitsFor tx acts1 + submitsFor tx acts2 :=
      fun a b => List.countP_append _ a b
    have hok : ∀ acts1 acts2, okSubmitsFor tx (acts1 ++ acts2) =
        okSubmitsFor tx acts1 + okSubmitsFor tx acts2 :=
      fun a b => List.countP_append _ a b
    refine ⟨fun hm => ?_, ?_, ?_⟩
    · show submitsFor tx ((scan_blocks cfg relay env st k).2.2 ++ _) = 0 ∧ _
      rw [hsub]
      have a1 := h1.1 hm
      have a2 := ih1.1 a1.2
      exact ⟨by rw [a1.1, a2.1], a2.2⟩
    · show okSubmitsFor tx ((scan_blocks cfg relay env st k).2.2 ++ _) ≤ 1
      rw [hok]
      by_cases hfst : 1 ≤ okSubmitsFor tx (scan_blocks cfg relay env st k).2.2
      · have hmem1 := h1.2.2 hfst
        have h0 : submitsFor tx (run_cycles cfg relay rest (scan_blocks cfg relay env st k).1
            (scan_blocks cfg relay env st k).2.1).2.2 = 0 := (ih1.1 hmem1).1
        have h0' := okSubmits_le_submits tx (run_cycles cfg relay rest
            (scan_blocks cfg relay env st k).1 (scan_blocks cfg relay env st k).2.1).2.2
        have := h1.2.1
        omega
      · have := ih1.2.1
        omega
    · show 1 ≤ okSubmitsFor tx ((scan_blocks cfg relay env st k).2.2 ++ _) → _
      rw [hok]
      intro htot
      by_cases hfst : 1 ≤ okSubmitsFor tx (scan_blocks cfg relay env st k).2.2
      · exact (ih1.1 (h1.2.2 hfst)).2
      · exact ih1.2.2 (by omega)

/-- Neither submission predicate matches a state-file write. -/
theorem countP_save_zero (tx : String) (l : Int) (p : List String) :
    List.countP (isOkSubmitOf tx) [EngineAct.saveState l p] = 0 ∧
    List.countP (isSubmitOf tx) [EngineAct.saveState l p] = 0 := by
  simp [List.countP_cons, isOkSubmitOf, isSubmitOf]

/-- C1, counterexample.  A run of two cycles from `last_scanned_block = 50`
against heights 100 and 113: the first cycle completes (it advances the
checkpoint to 88), the second cycle's log request follows immediately, and
the only durable write of the whole run is the single shutdown save — no
flush occurs at the end of the first cycle, contradicting the claim that
every completed scan cycle flushes the checkpoint before the next cycle
begins. -/
theorem C1_counterexample :
    (scan_blocks cfg0 relayNever env100ok st50 0).1.last_scanned_block = 88 ∧
    (listener_run cfg0 relayNever [env100ok, env113ok] st50).2 =
      [EngineAct.getLogsReq 51 88, EngineAct.getLogsReq 89 101,
        EngineAct.saveState 101 []] := by decide

/-- C1, amended.  The checkpoint is updated in memory each cycle but is
flushed to the durable state file exactly once per run, at shutdown (the
`finally` clause of `run`): no cycle emits a state-file write, and the whole
run's trace contains exactly one write, holding the final state. -/
theorem C1_thm (cfg : Config) (relay : Nat → Bool) (envs : List CycleEnv)
    (st : ListenerState) (k : Nat) :
    saveActs (run_cycles cfg relay envs st k).2.2 = [] ∧
    saveActs (listener_run cfg relay envs st).2 =
      [EngineAct.saveState (listener_run cfg relay envs st).1.last_scanned_block
        (listener_run cfg relay envs st).1.processed_txs] := by
  refine ⟨run_cycles_no_save cfg relay envs st k, ?_⟩
  show saveActs ((run_cycles cfg relay envs st 0).2.2 ++ [_]) = _
  have h0 := run_cycles_no_save cfg relay envs st 0
  unfold saveActs at h0 ⊢
  rw [List.filter_append, h0]
  rfl

/-- C2.  Evaluation at the failing input: with height 100,
`last_scanned_block = 50` and a transport failure inside the log fetch
(`w3.eth.get_logs` raises), the cycle does NOT abort: `get_logs` swallows the
exception and returns an empty list, the cycle reports one log request and
then advances `last_scanned_block` to 88, so the range `[51, 88]` is never
re-requested. -/
theorem C2_thm :
    scan_blocks cfg0 relayNever env100err st50 0 =
      ({ last_scanned_block := 88, processed_txs := [] }, 0,
        [EngineAct.getLogsReq 51 88]) := by decide

/-- C3.  Evaluation at the failing input: one decoded event at block 60 whose
relay submission fails, over two cycles (heights 100 and 113) against an
honest node.  The failed transaction hash is indeed not added to
`processed_txs`, but the range still advances to 88, the second cycle
requests only `[89, 101]`, the block-60 log is never re-fetched, and the
relay is invoked exactly once in the whole run — the event is lost, not
re-attempted. -/
theorem C3_thm :
    (listener_run cfg0 relayNever [env100chain, env113chain] st50).2 =
      [EngineAct.getLogsReq 51 88, EngineAct.submit txSmall false,
        EngineAct.getLogsReq 89 101, EngineAct.saveState 101 []] ∧
    (listener_run cfg0 relayNever [env100chain, env113chain] st50).1 =
      { last_scanned_block := 101, processed_txs := [] } ∧
    submitsFor txSmall (listener_run cfg0 relayNever [env100chain, env113chain] st50).2
      = 1 := by decide

/-- C4.  Evaluation at the failing inputs: for a log with three 32-byte
topics and a data payload of exactly two 32-byte big-endian words holding
amount 1 and destination chain id 1, the decoder returns amount `16 ^ 63`
(the `lstrip('0x')` call removes the leading zero hex digits of the first
word, shifting the slice boundaries), not 1; and for the two all-zero words
it returns a decode failure instead of a record. -/
theorem C4_thm :
    (parse_token_locked_event logSmallWords).map
        (fun e => (e.amount, e.destinationChainId)) = some (16 ^ 63, 1) ∧
    parse_token_locked_event logZeroWords = none := by decide

/-- C5.  Confirmation safety: in any cycle whose height fetch returned `h`,
every issued log request has its upper bound equal to at most
`h - CONFIRMATION_BLOCKS` and starts at `last_scanned_block + 1`; moreover
with height 100 and `last_scanned_block = 50` the cycle requests exactly
`[51, 88]`, and with height 62 it is a no-op. -/
theorem C5_thm :
    (∀ (cfg : Config) (relay : Nat → Bool) (env : CycleEnv) (st : ListenerState)
        (k : Nat) (h a b : Int), env.latest = some h →
        EngineAct.getLogsReq a b ∈ (scan_blocks cfg relay env st k).2.2 →
        b ≤ h - CONFIRMATION_BLOCKS ∧ a = st.last_scanned_block + 1) ∧
    (scan_blocks cfg0 relayNever env100ok st50 0).2.2 = [EngineAct.getLogsReq 51 88] ∧
    scan_blocks cfg0 relayNever env62 st50 0 = (st50, 0, []) := by
  refine ⟨?_, by decide, by decide⟩
  intro cfg relay env st k h a b hh hmem
  rcases scan_blocks_trace_cases cfg relay env st k with hcase | ⟨lb, hlat, hle, hcase⟩
  · rw [hcase] at hmem
    exact absurd hmem (List.not_mem_nil _)
  · rw [hlat] at hh
    injection hh with hh
    subst hh
    rw [hcase, dispatch_range_eq] at hmem
    rcases List.mem_cons.mp hmem with he | he
    · injection he with h1 h2
      subst h1; subst h2
      exact ⟨le_refl _, rfl⟩
    · rcases mem_process_logs_trace relay _ _ _ _ he with ⟨t, o, habs⟩
      exact EngineAct.noConfusion habs

/-- C5, witness: the universal part applied at height 100, range `[51, 88]`,
state `st50`. -/
theorem C5_witness :
    (88 : Int) ≤ 100 - CONFIRMATION_BLOCKS ∧ (51 : Int) = st50.last_scanned_block + 1 :=
  C5_thm.1 cfg0 relayNever env100ok st50 0 100 51 88 rfl (by decide)

/-- C6, counterexample.  A cycle whose log fetch returns two logs of the same
transaction while the relay rejects the first submission: the relay submit
operation is invoked twice for that transaction id, contradicting the
unconditional at-most-once claim. -/
theorem C6_counterexample :
    submitsFor txSmall (listener_run cfg0 relayNever [envDup] st50).2 = 2 := by decide

/-- C6, amended.  At most one SUCCESSFUL relay submission happens per
transaction id in a run (after the first success the id is in
`processed_txs` and every later occurrence is skipped), and an id already in
`processed_txs` at the start of the run is never submitted at all; before a
first success, a failed submission may be followed by further submit calls
for the same id. -/
theorem C6_thm (cfg : Config) (relay : Nat → Bool) (envs : List CycleEnv)
    (st : ListenerState) (tx : String) :
    okSubmitsFor tx (listener_run cfg relay envs st).2 ≤ 1 ∧
    submitsFor tx (listener_run cfg relay envs
      { st with processed_txs := tx :: st.processed_txs }).2 = 0 := by
  have key1 := run_cycles_submit_inv cfg relay tx envs st 0
  have key2 := run_cycles_submit_inv cfg relay tx envs
    { st with processed_txs := tx :: st.processed_txs } 0
  constructor
  · show okSubmitsFor tx ((run_cycles cfg relay envs st 0).2.2 ++ [_]) ≤ 1
    have hb := key1.2.1
    unfold okSubmitsFor at hb ⊢
    rw [List.countP_append, (countP_save_zero tx _ _).1]
    omega
  · have hm : tx ∈ ({ st with processed_txs := tx :: st.processed_txs } :
        ListenerState).processed_txs := List.mem_cons_self _ _
    have h0 := (key2.1 hm).1
    show submitsFor tx ((run_cycles cfg relay envs _ 0).2.2 ++ [_]) = 0
    unfold submitsFor at h0 ⊢
    rw [List.countP_append, (countP_save_zero tx _ _).2, h0]

/-- C7.  Checkpoint invariants: one scan cycle — and therefore a whole run,
shutdown save included — never decreases `last_scanned_block` and never
removes an element from `processed_txs`. -/
theorem C7_thm (cfg : Config) (relay : Nat → Bool) (env : CycleEnv)
    (envs : List CycleEnv) (st : ListenerState) (k : Nat) :
    (st.last_scanned_block ≤ (scan_blocks cfg relay env st k).1.last_scanned_block ∧
      st.processed_txs ⊆ (scan_blocks cfg relay env st k).1.processed_txs) ∧
    (st.last_scanned_block ≤ (listener_run cfg relay envs st).1.last_scanned_block ∧
      st.processed_txs ⊆ (listener_run cfg relay envs st).1.processed_txs) :=
  ⟨scan_blocks_mono cfg relay env st k, run_cycles_mono cfg relay envs st 0⟩

/-- C8.  Evaluation at the failing input: with `SOURCE_CHAIN_RPC_URL` and
`BRIDGE_CONTRACT_ADDRESS` set but `TOKENS_LOCKED_EVENT_HASH` absent from the
environment, `main` does NOT fail fast: the topic hash silently takes the
placeholder default `"0x123..."`, the validation passes, and the scan loop is
entered. -/
theorem C8_thm :
    env8 "TOKENS_LOCKED_EVENT_HASH" = none ∧
    main_enters_loop env8 = true ∧
    (mkConfig env8).map Config.event_topic_hash = some "0x123..." := by decide

/-- C9.  Evaluation at the failing input: on a cold start (no checkpoint
file) with `START_BLOCK` absent from the environment and chain height 1000
at startup, the initial `last_scanned_block` is 0 — `main` always places
`int(os.getenv('START_BLOCK', '0'))` in the config, so `_load_state`'s
queried-height fallback is unreachable — not the claimed current height. -/
theorem C9_thm :
    (mkConfig env9).map (fun c => (load_state c none 1000).last_scanned_block) =
      some (some 0) ∧
    (mkConfig env9).map (fun c => (listener_init c none 1000).2) = some [] ∧
    (0 : Int) ≠ 1000 := by decide

/-- C10.  A checkpoint file that is a valid JSON object with no
`processed_txs` key does not make startup fail: `__init__` keeps the loaded
state and initialises the processed set to the empty set. -/
theorem C10_thm (cfg : Config) (n latest_at_startup : Int) :
    listener_init cfg (some { last_scanned_block := some n, processed_txs := none })
        latest_at_startup =
      ({ last_scanned_block := some n, processed_txs := none }, []) := rfl
